import Mathlib

set_option maxRecDepth 8000

/-!
Shallow embedding of the evidence-extraction and source-name classification
engine of a news-debunking scraper (scraper.py), together with theorems that
settle a list of specification claims about it.

Python strings are modelled as Lean strings; the string primitives the
classifier depends on (substring containment, prefix tests, splitting on a
one-character separator, stripping) are implemented on the underlying
character lists so that every definition evaluates inside the kernel.
-/

namespace Scraper

/-- Python substring containment (the `in` operator) on character lists: the
needle is a prefix of some suffix of the haystack. -/
def listContains (needle hay : List Char) : Bool :=
  (List.range (hay.length + 1)).any (fun i => needle.isPrefixOf (hay.drop i))

/-- Python substring containment for strings. -/
def pyIn (needle hay : String) : Bool :=
  listContains needle.data hay.data

/-- Python startswith. -/
def pyStartswith (p s : String) : Bool :=
  p.data.isPrefixOf s.data

/-- Python strip: remove leading and trailing whitespace characters. -/
def pyStrip (s : String) : String :=
  String.mk (((s.data.dropWhile Char.isWhitespace).reverse.dropWhile
    Char.isWhitespace).reverse)

/-- Python split on a one-character separator, on character lists; an empty
input yields one empty field, exactly as in Python. -/
def splitChar (sep : Char) : List Char → List (List Char)
  | [] => [[]]
  | c :: rest =>
    match splitChar sep rest with
    | [] => [[]]
    | h :: t => if c = sep then [] :: h :: t else (c :: h) :: t

/-- Python split on a one-character separator, for strings. -/
def pySplit (sep : Char) (s : String) : List String :=
  (splitChar sep s.data).map String.mk

/-- An anchor element carrying an href attribute: `string` is the visible
text (absent when the tag has no single string child), `href` its target. -/
structure Link where
  string : Option String
  href : String
deriving DecidableEq

/-- A descendant element of the article body; the scraper only inspects its
tag name, its visible text and the anchors with href inside it. -/
structure Para where
  tag : String
  text : String
  links : List Link
deriving DecidableEq

/-- A element of the parsed raw document, listed in document order; the
scraper only inspects its tag name, its id attribute and its children. -/
structure Elem where
  tag : String
  id : Option String
  children : List Para
deriving DecidableEq

/-- The Article dataclass: url, the evidence paragraphs found in the body,
and the body element itself. -/
structure Article where
  url : String
  examples : List Para
  bs_source : Elem
deriving DecidableEq

/-- keep_articles_that_have_examples: a p element whose text contains one of
the four Greek marker phrases. -/
def keep_articles_that_have_examples (t : Para) : Bool :=
  t.tag == "p" &&
    (["Παραδείγματα:", "Παράδειγμα:", "Το είδαμε στα", "σε ιστοσελίδες όπως"].any
      (fun needle => pyIn needle t.text))

/-- Python re.search with the pattern "post-*": the pattern matches "post"
followed by zero or more hyphens, at any position of the value; since zero
hyphens suffice, the search succeeds exactly when "post" occurs as a
substring. -/
def re_search_post (s : String) : Bool :=
  pyIn "post" s

/-- Article._focus_on_article: raw.find of a div whose id attribute is
present and matches re.compile "post-*"; the first such div in document
order, none when no div matches. -/
def Article.focus_on_article (raw : List Elem) : Option Elem :=
  raw.find? (fun e => e.tag == "div" &&
    (match e.id with
     | some i => re_search_post i
     | none => false))

/-- Article._find_all_examples: the evidence paragraphs inside the body. -/
def Article.find_all_examples (tag : Elem) : List Para :=
  tag.children.filter keep_articles_that_have_examples

/-- Article.from_raw: focus on the article body, then collect the evidence
paragraphs. When no element matches, the Python code calls find_all on None
and raises AttributeError; the raised exception is embedded as an error
value. -/
def Article.from_raw (url : String) (raw : List Elem) : Except String Article :=
  match Article.focus_on_article raw with
  | none => Except.error "AttributeError: NoneType object has no attribute find_all"
  | some article => Except.ok ⟨url, Article.find_all_examples article, article⟩

/-- is_irrelevant_url: the fixed denylist of URL substrings. -/
def is_irrelevant_url (url : String) : Bool :=
  ["https://archive", "https://perma", "archive.org", "health.gov",
   "ellinikahoaxes.gr", "bit.ly", "facebook.com", "twitter.com",
   "youtube.com"].any (fun needle => pyIn needle url)

/-- A character matched by the regex class [α-ωΑ-Ω]: the unaccented Greek
letter ranges U+03B1 to U+03C9 and U+0391 to U+03A9. -/
def greekRangeChar (c : Char) : Bool :=
  (0x3B1 ≤ c.toNat && c.toNat ≤ 0x3C9) || (0x391 ≤ c.toNat && c.toNat ≤ 0x3A9)

/-- should_check_href_instead_of_data: true when re.search finds a character
of the class [α-ωΑ-Ω] or the text contains a space; otherwise true exactly
when the text starts with one of the fixed noise prefixes. -/
def should_check_href_instead_of_data (data : String) : Bool :=
  if data.data.any greekRangeChar || pyIn " " data then
    true
  else
    ["1", "2", "3", "4", ",", "#", "facebook", "Facebook", "Twitter",
     "twitter", "twitter.com", "YouTube"].any (fun needle => pyStartswith needle data)

/-- Article._filter_link: no or empty visible text yields nothing; else strip
the text and decide whether to look at the href; an href on the denylist
yields nothing; otherwise the field at index 2 of the href split on "/" is
returned when it exists (an IndexError is logged and yields nothing); when
the text itself is the signal it is returned stripped. -/
def Article.filter_link (link : Link) : Option String :=
  match link.string with
  | none => none
  | some s =>
    if s = "" then none
    else
      let tag_data := pyStrip s
      if should_check_href_instead_of_data tag_data then
        if is_irrelevant_url link.href then none
        else (pySplit '/' link.href)[2]?
      else some tag_data

/-- Article.has_examples. -/
def Article.has_examples (a : Article) : Bool :=
  decide (0 < a.examples.length)

/-- Article.find_all_links_in_examples: the anchors of every evidence
paragraph, in order. -/
def Article.find_all_links_in_examples (a : Article) : List Link :=
  a.examples.flatMap (fun ex => ex.links)

/-- The classified token set of a list of links: the Python code inserts each
_filter_link result into a set and then drops the falsy members (None and the
empty string) with set(filter(None, fnns)). Embedded as a first-occurrence
deduplicated list of the kept tokens. -/
def fnns_of_links (links : List Link) : List String :=
  ((links.filterMap Article.filter_link).filter (fun s => decide (s ≠ ""))).dedup

/-- Article.unique_fnns_in_examples. -/
def Article.unique_fnns_in_examples (a : Article) : List String :=
  fnns_of_links (Article.find_all_links_in_examples a)

/-- merge_similar_fnns: the fixed alias table, every other token passes
through unchanged. -/
def merge_similar_fnns (fnns : List String) : List String :=
  fnns.map (fun fnn =>
    if fnn = "pro-news.gr" then "pronews.gr"
    else if fnn = "pronews" then "pronews.gr"
    else fnn)

/-- The direct pass of main: every article with at least one evidence
paragraph contributes its deduplicated token set, in corpus order. -/
def direct_pass_fnns (articles : List Article) : List String :=
  (articles.filter Article.has_examples).flatMap Article.unique_fnns_in_examples

/-- main: articles without evidence paragraphs are set aside for the
inverse-search pass. -/
def no_examples_articles (articles : List Article) : List Article :=
  articles.filter (fun a => !(Article.has_examples a))

/-- fnw_names_freq: the Counter built over the merged direct-pass tokens,
viewed as the count of a given name. -/
def fnw_names_freq (articles : List Article) (name : String) : Nat :=
  (merge_similar_fnns (direct_pass_fnns articles)).count name

/-- needles = fnw_names_freq.keys(): every name discovered by the direct
pass, in first-occurrence order. -/
def inverse_needles (articles : List Article) : List String :=
  (merge_similar_fnns (direct_pass_fnns articles)).dedup

/-- set(str(article).split(" ")): the word set of the string form of a
no-evidence article; the string form itself is taken as given. -/
def word_set (s : String) : List String :=
  (pySplit ' ' s).dedup

/-- One iteration of the inverse-search loop of main over one no-evidence
article word set: every needle present in the word set receives one
increment, and an article matching no needle is appended to the unresolved
list. -/
def inverse_step (needles : List String)
    (st : (String → Nat) × List (List String)) (ws : List String) :
    (String → Nat) × List (List String) :=
  (fun m => st.1 m + (needles.filter (fun needle => ws.contains needle)).count m,
   if (needles.filter (fun needle => ws.contains needle)).isEmpty then
     st.2 ++ [ws]
   else st.2)

/-- The whole inverse-search pass of main: the from_inverse_search counts
(initially all zero) and articles_we_found_nothing. -/
def inverse_pass (needles : List String) (sets : List (List String)) :
    (String → Nat) × List (List String) :=
  sets.foldl (inverse_step needles) (fun _ => 0, [])

/-! Helper lemmas about the string primitives and the loop bodies. -/

lemma listContains_iff_infix (needle hay : List Char) :
    listContains needle hay = true ↔ needle <:+: hay := by
  constructor
  · intro h
    obtain ⟨i, _, hp⟩ := List.any_eq_true.mp h
    rw [List.isPrefixOf_iff_prefix] at hp
    exact hp.isInfix.trans (List.drop_suffix i hay).isInfix
  · rintro ⟨s, t, rfl⟩
    apply List.any_eq_true.mpr
    refine ⟨s.length, List.mem_range.mpr ?_, ?_⟩
    · simp only [List.length_append]
      omega
    · rw [List.append_assoc, List.drop_left, List.isPrefixOf_iff_prefix]
      exact List.prefix_append needle t

lemma pyIn_eq_true_iff (needle hay : String) :
    pyIn needle hay = true ↔ needle.data <:+: hay.data :=
  listContains_iff_infix needle.data hay.data

lemma singleton_infix_iff (c : Char) (l : List Char) : [c] <:+: l ↔ c ∈ l := by
  constructor
  · rintro ⟨s, t, rfl⟩
    simp
  · intro h
    obtain ⟨s, t, rfl⟩ := List.append_of_mem h
    exact ⟨s, t, by simp⟩

lemma pyIn_space_iff (hay : String) : pyIn " " hay = true ↔ ' ' ∈ hay.data := by
  rw [pyIn_eq_true_iff]
  exact singleton_infix_iff ' ' hay.data

lemma re_search_post_eq (i : String) :
    re_search_post i = decide ("post".data <:+: i.data) := by
  by_cases h : "post".data <:+: i.data
  · rw [decide_eq_true h]
    exact (pyIn_eq_true_iff "post" i).mpr h
  · rw [decide_eq_false h]
    cases hb : re_search_post i
    · rfl
    · exact absurd ((pyIn_eq_true_iff "post" i).mp hb) h

lemma fnns_of_links_skip (l : Link) (hl : Article.filter_link l = none)
    (pre post : List Link) :
    fnns_of_links (pre ++ l :: post) = fnns_of_links (pre ++ post) := by
  unfold fnns_of_links
  rw [List.filterMap_append, List.filterMap_cons_none hl, ← List.filterMap_append]

lemma inverse_step_count_of_mem (needles : List String) (hnd : needles.Nodup)
    (st : (String → Nat) × List (List String)) (ws : List String) (n : String)
    (hn : n ∈ needles) (hw : n ∈ ws) :
    (inverse_step needles st ws).1 n = st.1 n + 1 ∧
    (inverse_step needles st ws).2 = st.2 := by
  have hmem : n ∈ needles.filter (fun needle => ws.contains needle) := by
    rw [List.mem_filter]
    refine ⟨hn, ?_⟩
    rw [List.elem_iff]
    exact hw
  constructor
  · show st.1 n + (needles.filter (fun needle => ws.contains needle)).count n = st.1 n + 1
    rw [List.count_eq_one_of_mem (hnd.filter _) hmem]
  · show (if (needles.filter (fun needle => ws.contains needle)).isEmpty then
        st.2 ++ [ws] else st.2) = st.2
    rw [if_neg]
    intro he
    rw [List.isEmpty_iff] at he
    rw [he] at hmem
    exact List.not_mem_nil n hmem

lemma inverse_step_no_hit (needles : List String)
    (st : (String → Nat) × List (List String)) (ws : List String)
    (hnone : ∀ n, n ∈ needles → n ∉ ws) :
    (∀ m, (inverse_step needles st ws).1 m = st.1 m) ∧
    (inverse_step needles st ws).2 = st.2 ++ [ws] := by
  have hfil : needles.filter (fun needle => ws.contains needle) = [] := by
    apply List.filter_eq_nil_iff.mpr
    intro n hn hc
    exact hnone n hn (List.elem_iff.mp hc)
  constructor
  · intro m
    show st.1 m + (needles.filter (fun needle => ws.contains needle)).count m = st.1 m
    rw [hfil]
    rfl
  · show (if (needles.filter (fun needle => ws.contains needle)).isEmpty then
        st.2 ++ [ws] else st.2) = st.2 ++ [ws]
    rw [hfil]
    rfl

/-! Definitions written from the words of the specification, used to compare
the claimed behaviour with the embedded code. -/

/-- The specification reading of the article locator in claim C5: the first
element of the raw document, of any tag, whose identifier attribute matches
"post-" followed by any characters, a prefix match. -/
def claim_focus_on_article (raw : List Elem) : Option Elem :=
  raw.find? (fun e =>
    match e.id with
    | some i => pyStartswith "post-" i
    | none => false)

/-- The specification reading of the href decision in claim C6: the text
contains a Greek letter (a code point of the Greek and Coptic block) or a
space, or starts with a digit 1 to 4, a comma, "#", or a case variant of the
facebook, twitter or youtube markers. -/
def claim_check_href_instead (data : String) : Bool :=
  data.data.any (fun c => 0x370 ≤ c.toNat && c.toNat ≤ 0x3FF) ||
  pyIn " " data ||
  (["1", "2", "3", "4", ",", "#",
    "facebook", "Facebook", "twitter", "Twitter", "youtube", "YouTube"].any
    (fun needle => pyStartswith needle data))

/-- Stable insertion for the ranking of claim C3: a name is placed before the
first name with a strictly smaller count, so equal counts keep their original
order, as in the stable sort behind Counter.most_common. -/
def insertDesc (cnt : String → Nat) (x : String) : List String → List String
  | [] => [x]
  | y :: ys => if cnt y < cnt x then x :: y :: ys else y :: insertDesc cnt x ys

/-- Stable insertion sort by descending count. -/
def sortDesc (cnt : String → Nat) : List String → List String
  | [] => []
  | x :: xs => insertDesc cnt x (sortDesc cnt xs)

/-- The specification reading of the needle set in claim C3: the discovered
names ranked by count in stable descending order and truncated to the top k,
as Counter.most_common k would produce. -/
def claim_top_k_needles (k : Nat) (articles : List Article) : List String :=
  (sortDesc (fnw_names_freq articles) (inverse_needles articles)).take k

/-! Concrete inputs used by counterexamples, failing inputs and witnesses. -/

/-- A raw document whose only element is a div with an id that does not
mention "post" at all. -/
def c2_doc : List Elem := [{ tag := "div", id := some "content", children := [] }]

/-- A raw document with one div whose id merely contains "post" as a
substring, followed by one non-div element whose id starts with "post-". -/
def c5_doc : List Elem :=
  [{ tag := "div", id := some "xpost", children := [] },
   { tag := "span", id := some "post-5", children := [] }]

/-- The C1 failing input: a single article whose one evidence paragraph links
the same outlet under its two alias spellings. -/
def alias_article : Article :=
  { url := "http://e/alias"
    examples := [{ tag := "p", text := "Παραδείγματα: x",
                   links := [{ string := some "pro-news.gr", href := "http://pro-news.gr/a" },
                             { string := some "pronews.gr", href := "http://pronews.gr/b" }] }]
    bs_source := { tag := "div", id := some "post-2", children := [] } }

/-- An article whose single evidence paragraph links one outlet by name. -/
def mk_article (name : String) : Article :=
  { url := "http://e/" ++ name
    examples := [{ tag := "p", text := "Παραδείγματα: x",
                   links := [{ string := some name, href := "http://" ++ name ++ "/a" }] }]
    bs_source := { tag := "div", id := some "post-1", children := [] } }

/-- The twenty outlet names of the C3 ranking scenario. -/
def c3_names : List String :=
  ["alpha.gr", "beta.gr", "gamma.gr", "delta.gr", "epsilon.gr",
   "zeta.gr", "eta.gr", "theta.gr", "iota.gr", "kappa.gr",
   "lambda.gr", "mu.gr", "nu.gr", "xi.gr", "omicron.gr",
   "pi.gr", "rho.gr", "sigma.gr", "tau.gr", "phi.gr"]

/-- The corpus of the C3 counterexample: each of the twenty names is cited by
two articles and "upsilon.gr" by a single one, so "upsilon.gr" ranks strictly
below every other discovered name. -/
def c3_articles : List Article :=
  c3_names.map mk_article ++ c3_names.map mk_article ++ [mk_article "upsilon.gr"]

/-- The word set of the single no-evidence article of the C3 counterexample:
its text mentions "upsilon.gr" and no other discovered name. -/
def c3_ws : List String := word_set "Κείμενο upsilon.gr τέλος"

/-- The C10 witness article: one anchor with whitespace-only text, one with
no text at all, and one whose text is an outlet name. -/
def c10_article : Article :=
  { url := "http://e/c10"
    examples := [{ tag := "p", text := "Παράδειγμα: x",
                   links := [{ string := some "  ", href := "http://x/y" },
                             { string := none, href := "http://x/z" },
                             { string := some "skynews.gr", href := "http://skynews.gr/a" }] }]
    bs_source := { tag := "div", id := some "post-3", children := [] } }

/-! Theorems settling the claims. -/

/-- Helper: the unfolding of Article.filter_link once the visible text is
known to be present. -/
lemma filter_link_some_eq (l : Link) (s : String) (hs : l.string = some s) :
    Article.filter_link l =
      if s = "" then none
      else if should_check_href_instead_of_data (pyStrip s) then
        (if is_irrelevant_url l.href then none else (pySplit '/' l.href)[2]?)
      else some (pyStrip s) := by
  unfold Article.filter_link
  rw [hs]

/-- Claim C1 (code-bug evidence): on an article whose evidence links carry the
raw tokens "pro-news.gr" and "pronews.gr", per-article deduplication is
applied to the raw tokens before alias merging, so the direct pass counts the
canonical name "pronews.gr" twice for this single article, not once as the
claim (and the per-article dedup comment in the code) requires. -/
theorem direct_pass_alias_counts_twice :
    Article.has_examples alias_article = true ∧
    Article.unique_fnns_in_examples alias_article = ["pro-news.gr", "pronews.gr"] ∧
    fnw_names_freq [alias_article] "pronews.gr" = 2 :=
  ⟨by decide, by decide, by decide⟩

/-- Claim C2 counterexample: on a raw document in which no element matches
the article-body pattern, constructing the Article does not degrade to zero
evidence paragraphs; it fails, because the Python code calls find_all on the
None returned by the body search and AttributeError propagates. -/
theorem from_raw_missing_body_counterexample :
    Article.focus_on_article c2_doc = none ∧
    (Article.from_raw "http://e/x" c2_doc).isOk = false :=
  ⟨by decide, by decide⟩

/-- Claim C2 amended: for every raw document in which no element matches the
article-body pattern, constructing the Article fails with an error (the
unhandled AttributeError of the implementation); the document is not treated
as an article with zero evidence paragraphs. -/
theorem from_raw_missing_body_fails (url : String) (raw : List Elem)
    (h : Article.focus_on_article raw = none) :
    (Article.from_raw url raw).isOk = false := by
  unfold Article.from_raw
  rw [h]
  rfl

/-- Witness for the amended claim C2 at a concrete document. -/
theorem from_raw_missing_body_fails_witness :
    Article.focus_on_article c2_doc = none ∧
    (Article.from_raw "http://e/y" c2_doc).isOk = false :=
  ⟨by decide, from_raw_missing_body_fails "http://e/y" c2_doc (by decide)⟩

/-- Claim C5 counterexample: the claimed selector (first element of any tag
whose identifier starts with "post-") disagrees with the code on c5_doc: the
code selects the div whose id "xpost" merely contains "post" and never
considers the span whose id does start with "post-". -/
theorem focus_on_article_counterexample :
    Article.focus_on_article c5_doc =
      some { tag := "div", id := some "xpost", children := [] } ∧
    claim_focus_on_article c5_doc =
      some { tag := "span", id := some "post-5", children := [] } ∧
    Article.focus_on_article c5_doc ≠ claim_focus_on_article c5_doc :=
  ⟨by decide, by decide, by decide⟩

/-- Claim C5 amended: the article body node is the first div element of the
raw document whose id attribute contains "post" as a substring; the pattern
"post-*" means "post" followed by zero or more hyphens and the regex search
is unanchored, so it is a substring match on "post", not a prefix match on
"post-". -/
theorem focus_on_article_first_div_containing_post (raw : List Elem) :
    Article.focus_on_article raw =
      raw.find? (fun e => e.tag == "div" &&
        (match e.id with
         | some i => decide ("post".data <:+: i.data)
         | none => false)) := by
  unfold Article.focus_on_article
  congr 1
  funext e
  rcases e with ⟨tag, id, children⟩
  cases id with
  | none => rfl
  | some i =>
    show (tag == "div" && re_search_post i) =
      (tag == "div" && decide ("post".data <:+: i.data))
    rw [re_search_post_eq]

/-- Claim C6 counterexample: the anchor text "youtube" starts with a case
variant of the youtube marker, so the claimed decision procedure returns
true; the code list contains only the spelling "YouTube", so the code returns
false. The disagreement is independent of how a Greek letter is read, since
the input has no Greek characters. -/
theorem claim_check_href_disagrees :
    claim_check_href_instead "youtube" = true ∧
    should_check_href_instead_of_data "youtube" = false :=
  ⟨by decide, by decide⟩

/-- Claim C6 amended: checkHrefInstead is true exactly when the text contains
a letter of the unaccented Greek ranges U+03B1 to U+03C9 or U+0391 to U+03A9,
or a space, or starts with one of exactly these prefixes: "1", "2", "3", "4",
",", "#", "facebook", "Facebook", "Twitter", "twitter", "twitter.com",
"YouTube"; lowercase "youtube" and accented Greek letters are not covered. -/
theorem should_check_href_characterization (data : String) :
    should_check_href_instead_of_data data = true ↔
      ((∃ c ∈ data.data, (0x3B1 ≤ c.toNat ∧ c.toNat ≤ 0x3C9) ∨
          (0x391 ≤ c.toNat ∧ c.toNat ≤ 0x3A9)) ∨
        ' ' ∈ data.data ∨
        ∃ needle ∈ (["1", "2", "3", "4", ",", "#", "facebook", "Facebook",
          "Twitter", "twitter", "twitter.com", "YouTube"] : List String),
          needle.data <+: data.data) := by
  have key : should_check_href_instead_of_data data =
      (data.data.any greekRangeChar || pyIn " " data ||
        (["1", "2", "3", "4", ",", "#", "facebook", "Facebook", "Twitter",
          "twitter", "twitter.com", "YouTube"].any
          (fun needle => pyStartswith needle data))) := by
    unfold should_check_href_instead_of_data
    cases hc : (data.data.any greekRangeChar || pyIn " " data)
    · rw [if_neg Bool.false_ne_true, Bool.false_or]
    · rw [if_pos rfl, Bool.true_or]
  rw [key]
  simp only [Bool.or_eq_true, List.any_eq_true, greekRangeChar, Bool.and_eq_true,
    decide_eq_true_eq, pyStartswith, List.isPrefixOf_iff_prefix, pyIn_space_iff,
    or_assoc]

/-- Claim C7: when the visible text routes the decision to the href and the
href is not on the denylist, the retained raw token is the field at index 2
of the href split on "/", the host component of an absolute URL. -/
theorem filter_link_extracts_host (l : Link) (s : String)
    (hs : l.string = some s) (hne : s ≠ "")
    (hcheck : should_check_href_instead_of_data (pyStrip s) = true)
    (hrel : is_irrelevant_url l.href = false)
    (hlen : 2 < (pySplit '/' l.href).length) :
    Article.filter_link l = some ((pySplit '/' l.href).get ⟨2, hlen⟩) := by
  rw [filter_link_some_eq l s hs, if_neg hne, if_pos hcheck,
    if_neg (by rw [hrel]; exact Bool.false_ne_true),
    List.getElem?_eq_getElem hlen]
  rfl

/-- Witness for claim C7: the anchor with visible text "πηγή" and href
"https://katohika.gr/some/article" contributes the raw token "katohika.gr". -/
theorem filter_link_extracts_host_witness :
    Article.filter_link ⟨some "πηγή", "https://katohika.gr/some/article"⟩ =
      some "katohika.gr" := by
  have h := filter_link_extracts_host
    ⟨some "πηγή", "https://katohika.gr/some/article"⟩ "πηγή"
    rfl (by decide) (by decide) (by decide) (by decide)
  exact h.trans (by decide)

/-- Claim C8: when the visible text routes the decision to the href and the
href contains a denylisted substring, the link is discarded and contributes
zero tokens, wherever it sits among the links of the evidence paragraphs. -/
theorem filter_link_denylist_discards (l : Link) (s : String)
    (hs : l.string = some s) (hne : s ≠ "")
    (hcheck : should_check_href_instead_of_data (pyStrip s) = true)
    (hrel : is_irrelevant_url l.href = true) :
    Article.filter_link l = none ∧
    ∀ pre post : List Link,
      fnns_of_links (pre ++ l :: post) = fnns_of_links (pre ++ post) := by
  have hnone : Article.filter_link l = none := by
    rw [filter_link_some_eq l s hs, if_neg hne, if_pos hcheck, if_pos hrel]
  exact ⟨hnone, fun pre post => fnns_of_links_skip l hnone pre post⟩

/-- Witness for claim C8: an anchor with visible text "1" and an href
containing "archive.org" contributes nothing. -/
theorem filter_link_denylist_discards_witness :
    Article.filter_link ⟨some "1", "https://web.archive.org/web/1"⟩ = none ∧
    fnns_of_links [⟨some "1", "https://web.archive.org/web/1"⟩] = fnns_of_links [] := by
  have h := filter_link_denylist_discards
    ⟨some "1", "https://web.archive.org/web/1"⟩ "1"
    rfl (by decide) (by decide) (by decide)
  exact ⟨h.1, h.2 [] []⟩

/-- Claim C9: when the href of a link routed to host extraction splits into
fewer than 3 fields, the IndexError is caught, the link contributes no token,
and the classification of the remaining links is unaffected. -/
theorem filter_link_short_href_recovers (l : Link) (s : String)
    (hs : l.string = some s) (hne : s ≠ "")
    (hcheck : should_check_href_instead_of_data (pyStrip s) = true)
    (hrel : is_irrelevant_url l.href = false)
    (hlen : (pySplit '/' l.href).length < 3) :
    Article.filter_link l = none ∧
    ∀ pre post : List Link,
      fnns_of_links (pre ++ l :: post) = fnns_of_links (pre ++ post) := by
  have hnone : Article.filter_link l = none := by
    rw [filter_link_some_eq l s hs, if_neg hne, if_pos hcheck,
      if_neg (by rw [hrel]; exact Bool.false_ne_true),
      List.getElem?_eq_none (by omega)]
  exact ⟨hnone, fun pre post => fnns_of_links_skip l hnone pre post⟩

/-- Witness for claim C9: a malformed href with a single field drops its own
token and leaves the neighbouring link intact. -/
theorem filter_link_short_href_recovers_witness :
    Article.filter_link ⟨some "2", "broken"⟩ = none ∧
    fnns_of_links [⟨some "2", "broken"⟩, ⟨some "pronews.gr", "h"⟩] =
      fnns_of_links [⟨some "pronews.gr", "h"⟩] := by
  have h := filter_link_short_href_recovers ⟨some "2", "broken"⟩ "2"
    rfl (by decide) (by decide) (by decide) (by decide)
  exact ⟨h.1, h.2 [] [⟨some "pronews.gr", "h"⟩]⟩

/-- Claim C10: the set returned by unique_fnns_in_examples contains only
non-empty strings: the falsy classification results (None for missing text,
denylisted hrefs and failed host extraction, the empty string for
whitespace-only text) are all filtered out before the set is returned. -/
theorem unique_fnns_only_nonempty (a : Article) (x : String)
    (hx : x ∈ Article.unique_fnns_in_examples a) : x ≠ "" := by
  unfold Article.unique_fnns_in_examples fnns_of_links at hx
  exact of_decide_eq_true (List.mem_filter.mp (List.mem_dedup.mp hx)).2

/-- Witness for claim C10 on an article that mixes a whitespace-only anchor,
an anchor without text and a named outlet. -/
theorem unique_fnns_only_nonempty_witness :
    "skynews.gr" ∈ Article.unique_fnns_in_examples c10_article ∧
    "skynews.gr" ≠ "" :=
  ⟨by decide, unique_fnns_only_nonempty c10_article "skynews.gr" (by decide)⟩

/-- Claim C4: one iteration of the fallback loop over one no-evidence
article: a known name present as an exact token of the word set receives
exactly one increment and the article is not added to the unresolved list;
an article containing no known name is appended to the unresolved list,
never dropped, and no count changes for it. The needles, being the keys of
the frequency counter, carry no duplicates. -/
theorem inverse_fallback_per_article (needles : List String)
    (st : (String → Nat) × List (List String)) (ws : List String)
    (hnd : needles.Nodup) :
    (∀ n, n ∈ needles → n ∈ ws →
      (inverse_step needles st ws).1 n = st.1 n + 1 ∧
      (inverse_step needles st ws).2 = st.2) ∧
    ((∀ n, n ∈ needles → n ∉ ws) →
      (∀ m, (inverse_step needles st ws).1 m = st.1 m) ∧
      (inverse_step needles st ws).2 = st.2 ++ [ws]) :=
  ⟨fun n hn hw => inverse_step_count_of_mem needles hnd st ws n hn hw,
   fun hnone => inverse_step_no_hit needles st ws hnone⟩

/-- Witness for claim C4: a word set containing "pronews.gr" gives that name
one increment; a word set matching nothing lands in the unresolved list. -/
theorem inverse_fallback_per_article_witness :
    (inverse_step ["pronews.gr"] (fun _ => 0, []) ["x", "pronews.gr"]).1 "pronews.gr" = 0 + 1 ∧
    (inverse_step ["pronews.gr"] (fun _ => 0, []) ["y"]).2 = [] ++ [["y"]] :=
  ⟨((inverse_fallback_per_article ["pronews.gr"] (fun _ => 0, []) ["x", "pronews.gr"]
      (by decide)).1 "pronews.gr" (by decide) (by decide)).1,
   ((inverse_fallback_per_article ["pronews.gr"] (fun _ => 0, []) ["y"]
      (by decide)).2 (by decide)).2⟩

/-- Claim C3 counterexample: with twenty names counted twice and "upsilon.gr"
counted once, "upsilon.gr" is outside the top 20 (and the top 10) of the
ranking, yet the pass as implemented searches for it, increments it and
resolves the article, where the claimed top-K pass would leave the article
unresolved with the count unchanged. -/
theorem top_k_cutoff_counterexample :
    "upsilon.gr" ∉ claim_top_k_needles 20 c3_articles ∧
    "upsilon.gr" ∉ claim_top_k_needles 10 c3_articles ∧
    "upsilon.gr" ∈ inverse_needles c3_articles ∧
    (inverse_pass (inverse_needles c3_articles) [c3_ws]).1 "upsilon.gr" = 1 ∧
    (inverse_pass (inverse_needles c3_articles) [c3_ws]).2 = [] ∧
    (inverse_pass (claim_top_k_needles 20 c3_articles) [c3_ws]).1 "upsilon.gr" = 0 ∧
    (inverse_pass (claim_top_k_needles 20 c3_articles) [c3_ws]).2 = [c3_ws] :=
  ⟨by decide, by decide, by decide, by decide, by decide, by decide, by decide⟩

/-- Claim C3 amended: the fallback pass searches each no-evidence article
word set for every SourceName discovered by the direct pass (all keys of the
frequency table, with no rank cutoff; the top-20 truncation only shapes the
report), and each discovered name present in the word set is incremented;
the article string form is tokenized by splitting on the space character. -/
theorem inverse_needles_all_names (articles : List Article) (n : String)
    (hn : n ∈ merge_similar_fnns (direct_pass_fnns articles)) :
    n ∈ inverse_needles articles ∧
    ∀ st ws, n ∈ ws →
      (inverse_step (inverse_needles articles) st ws).1 n = st.1 n + 1 := by
  have hmem : n ∈ inverse_needles articles := List.mem_dedup.mpr hn
  exact ⟨hmem, fun st ws hw =>
    (inverse_step_count_of_mem _ (List.nodup_dedup _) st ws n hmem hw).1⟩

/-- Witness for the amended claim C3 on a one-article corpus. -/
theorem inverse_needles_all_names_witness :
    "pronews.gr" ∈ inverse_needles [mk_article "pronews.gr"] ∧
    (inverse_step (inverse_needles [mk_article "pronews.gr"])
      (fun _ => 0, []) ["pronews.gr"]).1 "pronews.gr" = 0 + 1 := by
  have h := inverse_needles_all_names [mk_article "pronews.gr"] "pronews.gr" (by decide)
  exact ⟨h.1, h.2 (fun _ => 0, []) ["pronews.gr"] (by decide)⟩

end Scraper
